import Mathlib

/-!
Verification of the hash-join operator pair of the Velox execution engine,
as described by the repository design specification and exercised by
`velox/exec/tests/HashJoinTest.cpp`.

The executable operator code (HashProbe / HashBuild / Spiller) is not part
of the source tree given here, only its test suite is; the operational
definitions below are therefore modelled from the design specification
(sections 3-8) and checked against the expectations recorded in the tests.
-/

namespace VeloxJoin

/-- Modelled from the spec: a join-key value. The engine's key columns are
typed vectors; here a key is either SQL NULL, an integer, a finite
floating-point value (payload abstracted to an integer), or a NaN carrying
its raw bit pattern (spec section 3: "NaN values with any bit pattern
compare equal"). -/
inductive KeyVal where
  | null : KeyVal
  | int (n : Int) : KeyVal
  | fnum (v : Int) : KeyVal
  | fnan (bits : Nat) : KeyVal
deriving DecidableEq, Repr

def KeyVal.isNull : KeyVal → Bool
  | .null => true
  | _ => false

/-- Modelled from the spec: canonicalized join-key equality (spec section 4.2:
"Equality uses IEEE-754 semantics for non-NaN values and a canonicalized
equality for NaN"). SQL NULL compares equal to nothing, including itself. -/
def keyEq : KeyVal → KeyVal → Bool
  | .int a, .int b => a == b
  | .fnum a, .fnum b => a == b
  | .fnan _, .fnan _ => true
  | _, _ => false

/-- Modelled from the spec: the key hash used for table bucketing and spill
partitioning. NaN is canonicalized before hashing so that equal keys hash
equally. -/
def hashOf : KeyVal → Nat
  | .null => 11
  | .int n => (2 * n.natAbs + (if n < 0 then 1 else 0)) * 2654435761 + 13
  | .fnum v => (2 * v.natAbs + (if v < 0 then 1 else 0)) * 40503 + 17
  | .fnan _ => 2166136261

/-- A row: one join-key value plus an abstract payload standing for all
non-key columns. -/
structure Row where
  key : KeyVal
  data : Int
deriving DecidableEq, Repr

/-- One output row: an optional probe side (none = null-extended), an
optional build side, and the optional boolean column appended by the
semi-project join variants. -/
structure OutRow where
  pr : Option Row
  bd : Option Row
  sp : Option Bool
deriving DecidableEq, Repr

/-- The eight join variants plus Anti (spec section 3). -/
inductive JoinType where
  | inner | left | right | full
  | leftSemiFilter | rightSemiFilter
  | leftSemiProject | rightSemiProject
  | anti
deriving DecidableEq, Repr

/-- The optional residual filter over a (probe, build) pair; a NULL filter
result is treated as false (spec section 4.5 step 3), so the predicate is
boolean. -/
abbrev JFilter := Option (Row → Row → Bool)

/-- A probe row and a build row match when their keys compare equal and the
residual filter (when present) passes. -/
def rowsMatch (f : JFilter) (p b : Row) : Bool :=
  keyEq p.key b.key && (match f with | none => true | some g => g p b)

/-- Reference three-valued SQL semantics of `k IN (SELECT key FROM build)`:
true when a key matches, false when the set is empty or provably disjoint,
NULL (none) when k is NULL or the build side holds a NULL key and no match
exists. -/
def inBuildFlag (build : List Row) (k : KeyVal) : Option Bool :=
  if build.isEmpty then some false
  else if build.any (fun b => keyEq k b.key) then some true
  else if k.isNull || build.any (fun b => b.key.isNull) then none
  else some false

/-- Reference SQL semantics of `k NOT IN (SELECT key FROM build)` being
true: true exactly when the build side is empty, or k is non-NULL, no build
key is NULL and no build key equals k. -/
def notInBuild (build : List Row) (k : KeyVal) : Bool :=
  build.isEmpty ||
    (!k.isNull && !build.any (fun b => b.key.isNull) &&
      !build.any (fun b => keyEq k b.key))

/-- Reference SQL semantics of each join variant, written declaratively from
the reference queries used by the test suite (cross join + key equality,
IN / NOT IN / EXISTS subqueries). The null-aware semi-project and anti
variants follow three-valued IN semantics and carry no residual filter. -/
def refJoin (jt : JoinType) (nullAware : Bool) (f : JFilter)
    (probe build : List Row) : List OutRow :=
  match jt with
  | .inner =>
      probe.flatMap fun p =>
        (build.filter (fun b => rowsMatch f p b)).map fun b =>
          ⟨some p, some b, none⟩
  | .left =>
      probe.flatMap fun p =>
        let ms := build.filter (fun b => rowsMatch f p b)
        if ms.isEmpty then [⟨some p, none, none⟩]
        else ms.map fun b => ⟨some p, some b, none⟩
  | .right =>
      (probe.flatMap fun p =>
        (build.filter (fun b => rowsMatch f p b)).map fun b =>
          ⟨some p, some b, none⟩) ++
      (build.filter (fun b => !probe.any (fun p => rowsMatch f p b))).map
        fun b => ⟨none, some b, none⟩
  | .full =>
      (probe.flatMap fun p =>
        let ms := build.filter (fun b => rowsMatch f p b)
        if ms.isEmpty then [⟨some p, none, none⟩]
        else ms.map fun b => ⟨some p, some b, none⟩) ++
      (build.filter (fun b => !probe.any (fun p => rowsMatch f p b))).map
        fun b => ⟨none, some b, none⟩
  | .leftSemiFilter =>
      (probe.filter (fun p => build.any (fun b => rowsMatch f p b))).map
        fun p => ⟨some p, none, none⟩
  | .rightSemiFilter =>
      (build.filter (fun b => probe.any (fun p => rowsMatch f p b))).map
        fun b => ⟨none, some b, none⟩
  | .leftSemiProject =>
      if nullAware then
        probe.map fun p => ⟨some p, none, inBuildFlag build p.key⟩
      else
        probe.map fun p =>
          ⟨some p, none, some (build.any (fun b => rowsMatch f p b))⟩
  | .rightSemiProject =>
      if nullAware then
        build.map fun b => ⟨none, some b, inBuildFlag probe b.key⟩
      else
        build.map fun b =>
          ⟨none, some b, some (probe.any (fun p => rowsMatch f p b))⟩
  | .anti =>
      if nullAware then
        (probe.filter (fun p => notInBuild build p.key)).map
          fun p => ⟨some p, none, none⟩
      else
        (probe.filter (fun p => !build.any (fun b => rowsMatch f p b))).map
          fun p => ⟨some p, none, none⟩

/-- Three-valued IN with externally supplied emptiness / null-presence facts
about the key set; with the facts computed from `l` itself this is exactly
`inBuildFlag`. -/
def inFlagG (isEmp hasNull : Bool) (l : List Row) (k : KeyVal) : Option Bool :=
  if isEmp then some false
  else if l.any (fun b => keyEq k b.key) then some true
  else if k.isNull || hasNull then none
  else some false

/-- NOT IN with externally supplied emptiness / null-presence facts about the
build-side key set. -/
def notInBuildG (bEmpty bHasNull : Bool) (build : List Row) (k : KeyVal) :
    Bool :=
  bEmpty || (!k.isNull && !bHasNull && !build.any (fun b => keyEq k b.key))

/-- Modelled from the spec: the global key statistics the build and probe
phases record eagerly (spec section 4.2: "Build counts null keys per column;
these counts are reported as stats and used by the probe to short-circuit").
They are computed over the full inputs, before any partitioning. -/
structure GlobalStats where
  buildEmpty : Bool
  buildHasNull : Bool
  probeEmpty : Bool
  probeHasNull : Bool
deriving DecidableEq, Repr

def statsOf (probe build : List Row) : GlobalStats :=
  ⟨build.isEmpty, build.any (fun b => b.key.isNull),
    probe.isEmpty, probe.any (fun p => p.key.isNull)⟩

/-- The reference SQL semantics with the global emptiness / null-presence
facts taken as an explicit argument instead of being recomputed from the
inputs; `refJoinG jt na f (statsOf probe build) probe build` coincides with
`refJoin jt na f probe build`. -/
def refJoinG (jt : JoinType) (nullAware : Bool) (f : JFilter)
    (g : GlobalStats) (probe build : List Row) : List OutRow :=
  match jt with
  | .inner =>
      probe.flatMap fun p =>
        (build.filter (fun b => rowsMatch f p b)).map fun b =>
          ⟨some p, some b, none⟩
  | .left =>
      probe.flatMap fun p =>
        let ms := build.filter (fun b => rowsMatch f p b)
        if ms.isEmpty then [⟨some p, none, none⟩]
        else ms.map fun b => ⟨some p, some b, none⟩
  | .right =>
      (probe.flatMap fun p =>
        (build.filter (fun b => rowsMatch f p b)).map fun b =>
          ⟨some p, some b, none⟩) ++
      (build.filter (fun b => !probe.any (fun p => rowsMatch f p b))).map
        fun b => ⟨none, some b, none⟩
  | .full =>
      (probe.flatMap fun p =>
        let ms := build.filter (fun b => rowsMatch f p b)
        if ms.isEmpty then [⟨some p, none, none⟩]
        else ms.map fun b => ⟨some p, some b, none⟩) ++
      (build.filter (fun b => !probe.any (fun p => rowsMatch f p b))).map
        fun b => ⟨none, some b, none⟩
  | .leftSemiFilter =>
      (probe.filter (fun p => build.any (fun b => rowsMatch f p b))).map
        fun p => ⟨some p, none, none⟩
  | .rightSemiFilter =>
      (build.filter (fun b => probe.any (fun p => rowsMatch f p b))).map
        fun b => ⟨none, some b, none⟩
  | .leftSemiProject =>
      if nullAware then
        probe.map fun p =>
          ⟨some p, none, inFlagG g.buildEmpty g.buildHasNull build p.key⟩
      else
        probe.map fun p =>
          ⟨some p, none, some (build.any (fun b => rowsMatch f p b))⟩
  | .rightSemiProject =>
      if nullAware then
        build.map fun b =>
          ⟨none, some b, inFlagG g.probeEmpty g.probeHasNull probe b.key⟩
      else
        build.map fun b =>
          ⟨none, some b, some (probe.any (fun p => rowsMatch f p b))⟩
  | .anti =>
      if nullAware then
        (probe.filter
          (fun p => notInBuildG g.buildEmpty g.buildHasNull build p.key)).map
          fun p => ⟨some p, none, none⟩
      else
        (probe.filter (fun p => !build.any (fun b => rowsMatch f p b))).map
          fun p => ⟨some p, none, none⟩

/-- Join types whose output can contain unmatched build rows; for these the
build operator retains null-key build rows, for all others it filters them
early (spec section 4.4 addInput). -/
def buildKeepsNullKeys : JoinType → Bool
  | .right | .full | .rightSemiProject => true
  | _ => false

/-- Join types for which the probe drops null-key probe rows up front (spec
section 4.5 step 1). -/
def probeDropsNullKeys : JoinType → Bool
  | .inner | .leftSemiFilter | .rightSemiFilter => true
  | _ => false

/-- The build rows retained by the build operator. -/
def keptRows (jt : JoinType) (build : List Row) : List Row :=
  if buildKeepsNullKeys jt then build
  else build.filter (fun b => !b.key.isNull)

/-- Modelled from the spec: the published hash table (spec section 4.2). Rows
carry stable ids; `buckets` indexes them by key hash modulo the bucket
count. -/
structure BuiltTable where
  nb : Nat
  rows : List (Nat × Row)
  buckets : List (List (Nat × Row))
deriving Repr

def buildTable (jt : JoinType) (nb : Nat) (build : List Row) : BuiltTable :=
  let rows := (keptRows jt build).enum
  ⟨nb, rows,
    (List.range nb).map fun i =>
      rows.filter (fun r => hashOf r.2.key % nb == i)⟩

/-- Hash-table chain lookup: fetch the bucket of the probe key's hash and keep
the entries whose key compares equal. -/
def lookupKey (t : BuiltTable) (k : KeyVal) : List (Nat × Row) :=
  (t.buckets.getD (hashOf k % t.nb) []).filter (fun r => keyEq k r.2.key)

/-- Chain lookup followed by residual-filter evaluation (spec section 4.5
steps 2-3). -/
def lookupMatches (f : JFilter) (t : BuiltTable) (p : Row) :
    List (Nat × Row) :=
  (lookupKey t p.key).filter
    (fun r => match f with | none => true | some g => g p r.2)

/-- Modelled from the spec: per-probe-row output emission (spec section 4.5
steps 1-4). The build-row-driven variants emit nothing here; their output
comes from the post-probe phase. For null-aware anti the caller handles the
eager global short-circuits, so this sees only non-null probe keys against a
null-free build side. -/
def probeRowOut (jt : JoinType) (na : Bool) (f : JFilter) (g : GlobalStats)
    (t : BuiltTable) (p : Row) : List OutRow :=
  let ms := lookupMatches f t p
  match jt with
  | .inner => ms.map fun r => ⟨some p, some r.2, none⟩
  | .left | .full =>
      if ms.isEmpty then [⟨some p, none, none⟩]
      else ms.map fun r => ⟨some p, some r.2, none⟩
  | .right => ms.map fun r => ⟨some p, some r.2, none⟩
  | .leftSemiFilter => if ms.isEmpty then [] else [⟨some p, none, none⟩]
  | .rightSemiFilter => []
  | .leftSemiProject =>
      if na then
        [⟨some p, none,
          if g.buildEmpty then some false
          else if !ms.isEmpty then some true
          else if p.key.isNull || g.buildHasNull then none
          else some false⟩]
      else [⟨some p, none, some (!ms.isEmpty)⟩]
  | .rightSemiProject => []
  | .anti => if ms.isEmpty then [⟨some p, none, none⟩] else []

/-- The stable ids of the build rows matched while probing; used by the
post-probe phase of the build-row-emitting variants. -/
def matchedIdxs (f : JFilter) (t : BuiltTable) (probe : List Row) :
    List Nat :=
  probe.flatMap fun p => (lookupMatches f t p).map (fun r => r.1)

/-- Modelled from the spec: post-probe emission over the build rows (spec
section 4.2 listAllRows, used by Right/Full joins to emit unmatched build
rows, by RightSemiFilter for matched ones and by RightSemiProject for all
of them with the membership flag). -/
def postOut (jt : JoinType) (na : Bool) (g : GlobalStats) (t : BuiltTable)
    (matched : List Nat) : List OutRow :=
  match jt with
  | .right | .full =>
      (t.rows.filter (fun r => !matched.contains r.1)).map
        fun r => ⟨none, some r.2, none⟩
  | .rightSemiFilter =>
      (t.rows.filter (fun r => matched.contains r.1)).map
        fun r => ⟨none, some r.2, none⟩
  | .rightSemiProject =>
      t.rows.map fun r =>
        ⟨none, some r.2,
          if na then
            if g.probeEmpty then some false
            else if matched.contains r.1 then some true
            else if r.2.key.isNull || g.probeHasNull then none
            else some false
          else some (matched.contains r.1)⟩
  | _ => []

/-- Modelled from the spec: one in-memory hash-join pass (build phase, probe
loop, post-probe phase) given externally supplied global key statistics.
For null-aware anti joins the global short-circuits of spec section 4.5
step 1 are applied first: an empty build side passes every probe row
through, a null build key empties the whole output, and otherwise null-key
probe rows are dropped eagerly. -/
def coreJoin (jt : JoinType) (na : Bool) (f : JFilter) (nb : Nat)
    (g : GlobalStats) (probe build : List Row) : List OutRow :=
  if na && jt == JoinType.anti then
    if g.buildEmpty then probe.map fun p => ⟨some p, none, none⟩
    else if g.buildHasNull then []
    else
      let t := buildTable jt nb build
      (probe.filter (fun p => !p.key.isNull)).flatMap
        fun p => probeRowOut .anti false none g t p
  else
    let t := buildTable jt nb build
    let probe' :=
      if probeDropsNullKeys jt then probe.filter (fun p => !p.key.isNull)
      else probe
    (probe'.flatMap fun p => probeRowOut jt na f g t p) ++
      postOut jt na g t (matchedIdxs f t probe')

/-- Modelled from the spec: the hash join operator pair run without spilling
(HashBuild + HashProbe, missing from the source tree). -/
def hashJoin (jt : JoinType) (na : Bool) (f : JFilter) (nb : Nat)
    (probe build : List Row) : List OutRow :=
  coreJoin jt na f nb (statsOf probe build) probe build

/-- Planner legality of a join specification (spec section 6): null-aware is
legal only for Anti and the SemiProject variants, and (for the variants
modelled here) carries no residual filter. -/
def LegalSpec (jt : JoinType) (na : Bool) (f : JFilter) : Prop :=
  na = true →
    (jt = .anti ∨ jt = .leftSemiProject ∨ jt = .rightSemiProject) ∧ f = none

/-! The spill subsystem. -/

/-- Modelled from the spec: a spill schedule (the reclaim points the
arbitrator injects, missing from the source tree together with the
Spiller). A `.spill` node means memory is reclaimed at this point: the
remaining probe and build rows are partitioned by a slice of the key hash
and each partition is processed recursively under its child plan; `.mem`
means the partition is processed in memory without further spilling. -/
inductive SpillPlan where
  | mem : SpillPlan
  | spill (children : List SpillPlan) : SpillPlan
deriving Repr

/-- Partition assignment (spec section 4.3): the bits of the key hash
starting at `sb`, taken modulo the partition count. Two rows with the same
hash always land in the same partition at a given level. -/
def partOf (sb np : Nat) (k : KeyVal) : Nat := (hashOf k >>> sb) % np

/-- Whether a spill request at recursion level `level` is within the
configured maximum spill level (negative = unlimited). -/
def canSpill (maxLevel : Int) (level : Nat) : Bool :=
  maxLevel < 0 || (level : Int) ≤ maxLevel

mutual
/-- Modelled from the spec: join execution under a spill schedule (the
HashBuild/HashProbe reclaim paths and the Spiller, missing from the source
tree). The global key statistics were computed eagerly over the full inputs
and are shared by every partition. A spill node within the level budget
partitions both inputs by the hash slice at the current start bit and
recurses with the start bit advanced (spec 4.3); beyond the budget the
partition is processed in place and one `exceededMaxSpillLevel` event is
recorded on the operator pair. Returns the emitted rows and the number of
exceeded-level events. -/
def spillExec (jt : JoinType) (na : Bool) (f : JFilter) (nb : Nat)
    (g : GlobalStats) (maxLevel : Int) :
    SpillPlan → Nat → Nat → List Row → List Row → List OutRow × Nat
  | .mem, _, _, probe, build => (coreJoin jt na f nb g probe build, 0)
  | .spill cs, level, sb, probe, build =>
      if canSpill maxLevel level then
        spillParts jt na f nb g maxLevel cs cs.length 0 level sb probe build
      else (coreJoin jt na f nb g probe build, 1)

/-- Process the partitions of one spill node in order: partition `i` of
`np` receives exactly the rows whose hash slice at `sb` equals `i`. -/
def spillParts (jt : JoinType) (na : Bool) (f : JFilter) (nb : Nat)
    (g : GlobalStats) (maxLevel : Int) :
    List SpillPlan → Nat → Nat → Nat → Nat → List Row → List Row →
      List OutRow × Nat
  | [], _, _, _, _, _, _ => ([], 0)
  | c :: rest, np, i, level, sb, probe, build =>
      let r1 := spillExec jt na f nb g maxLevel c (level + 1) (sb + 3)
        (probe.filter (fun r => partOf sb np r.key == i))
        (build.filter (fun r => partOf sb np r.key == i))
      let r2 := spillParts jt na f nb g maxLevel rest np (i + 1) level sb
        probe build
      (r1.1 ++ r2.1, r1.2 + r2.2)
end

mutual
/-- A spill plan is well formed when every spill node has at least one
partition (the engine always uses `1 << partitionBits ≥ 2`). -/
def planWF : SpillPlan → Bool
  | .mem => true
  | .spill cs => !cs.isEmpty && plansWF cs

def plansWF : List SpillPlan → Bool
  | [] => true
  | c :: rest => planWF c && plansWF rest
end

mutual
/-- Whether executing the plan reaches a spill request beyond the level
budget (such a request is processed in place and recorded). -/
def planExceeds (maxLevel : Int) : SpillPlan → Nat → Bool
  | .mem, _ => false
  | .spill cs, level =>
      if canSpill maxLevel level then plansExceed maxLevel cs (level + 1)
      else true

def plansExceed (maxLevel : Int) : List SpillPlan → Nat → Bool
  | [], _ => false
  | c :: rest, level =>
      planExceeds maxLevel c level || plansExceed maxLevel rest level
end

/-- Modelled from the spec: the full spilling hash join — global statistics
computed once over the inputs, then execution under the given spill
schedule and level budget. -/
def spillJoin (jt : JoinType) (na : Bool) (f : JFilter) (nb : Nat)
    (maxLevel : Int) (pl : SpillPlan) (sb : Nat)
    (probe build : List Row) : List OutRow × Nat :=
  spillExec jt na f nb (statsOf probe build) maxLevel pl 0 sb probe build

/-- The per-operator-pair runtime statistics of a spilling run: each
processed-in-place event beyond the level budget is recorded by both the
build and the probe operator (the test asserts the stat on both HashBuild
and HashProbe). -/
structure RunStats where
  buildExceededMaxSpillLevel : Nat
  probeExceededMaxSpillLevel : Nat
deriving DecidableEq, Repr

/-- The spilling hash join together with its recorded statistics. -/
def spillJoinRun (jt : JoinType) (na : Bool) (f : JFilter) (nb : Nat)
    (maxLevel : Int) (pl : SpillPlan) (sb : Nat)
    (probe build : List Row) : List OutRow × RunStats :=
  let r := spillExec jt na f nb (statsOf probe build) maxLevel pl 0 sb
    probe build
  (r.1, ⟨r.2, r.2⟩)

/-! Spill byte accounting. -/

inductive SpillError where
  | spillLimitExceeded
deriving DecidableEq, Repr

/-- Modelled from the spec: the per-query spill byte accounting (spec
section 4.3: "maxSpillBytes: a per-query global counter; crossing it causes
all subsequent spill attempts to fail with SpillLimitExceeded"; section 6:
0 = unlimited). The implementation is missing from the source tree. -/
structure SpillAccount where
  maxSpillBytes : Nat
  spilledBytes : Nat
deriving DecidableEq, Repr

/-- One spill attempt: fails when the limit is enabled and the counter has
already crossed it, otherwise adds the attempt's bytes to the counter. -/
def trySpill (a : SpillAccount) (bytes : Nat) :
    Except SpillError SpillAccount :=
  if a.maxSpillBytes ≠ 0 ∧ a.maxSpillBytes < a.spilledBytes then
    .error .spillLimitExceeded
  else .ok { a with spilledBytes := a.spilledBytes + bytes }

/-- A sequence of spill attempts, stopping at the first failure. -/
def runSpills (a : SpillAccount) : List Nat → Except SpillError SpillAccount
  | [] => .ok a
  | b :: rest =>
    match trySpill a b with
    | .error e => .error e
    | .ok a2 => runSpills a2 rest

/-! Dynamic filters. -/

/-- Modelled from the spec: a dynamic filter over one integer key column —
the closed range of the observed build keys plus, when the distinct count
is small enough, the exact distinct-value set (spec sections 4.5 and 4.7).
The producing code is missing from the source tree. -/
structure DynFilter where
  minv : Int
  maxv : Int
  distinct : Option (List Int)
deriving DecidableEq, Repr

/-- Construct the dynamic filter of one key column from the observed build
keys. -/
def buildDynFilter (keys : List Int) (maxDistinct : Nat) : DynFilter :=
  ⟨keys.foldl min (keys.headD 0), keys.foldl max (keys.headD 0),
    if keys.dedup.length ≤ maxDistinct then some keys.dedup else none⟩

/-- Whether the scan keeps a probe key under the filter. -/
def dynFilterAccepts (df : DynFilter) (k : Int) : Bool :=
  df.minv ≤ k && k ≤ df.maxv &&
    (match df.distinct with | none => true | some s => s.contains k)

/-- Whether the schedule spills at all. -/
def spillOccurred : SpillPlan → Bool
  | .mem => false
  | .spill _ => true

/-- Modelled from the spec: dynamic filter emission happens after the build
phase completes and ONLY if no spill occurred (spec section 4.5); one
filter per build key column is published to the upstream scan. -/
def probeFiltersProduced (pl : SpillPlan) (buildKeyCols : List (List Int))
    (maxDistinct : Nat) : List DynFilter :=
  if spillOccurred pl then []
  else buildKeyCols.map (fun ks => buildDynFilter ks maxDistinct)

/-- The scan accepts each published filter (one acceptance per produced
filter, as the test asserts filtersAccepted = filtersProduced). -/
def probeFiltersAccepted (pl : SpillPlan) (buildKeyCols : List (List Int))
    (maxDistinct : Nat) : Nat :=
  (probeFiltersProduced pl buildKeyCols maxDistinct).length

/-! The dynamic-filter replacement scenario of HashJoinTest.dynamicFilters:
10 probe scan splits of 333 rows (split i holds keys r - 10*i for
r < 333) against 100 build keys 35, 37, ..., 233. -/

def dfBuildKeys : List Int := (List.range 100).map (fun j => 35 + 2 * (j : Int))

def dfProbeSplit (i : Nat) : List Int :=
  (List.range 333).map (fun r => (r : Int) - 10 * i)

def dfScenarioFilter : DynFilter := buildDynFilter dfBuildKeys 10000

/-- Probe rows of one split that pass the pushed-down filter; with the join
replaced by the filter these are exactly the rows passed through, counted
by replacedWithFilterRows. -/
def dfPassCount (i : Nat) : Nat :=
  (dfProbeSplit i).countP (fun k => dynFilterAccepts dfScenarioFilter k)

def dfReplacedWithFilterRows : Nat :=
  ((List.range 10).map dfPassCount).sum

/-! Empty build side. -/

/-- Join types whose output is necessarily empty when the build side is
empty; only for these may the probe finish early on an empty build. -/
def emptyBuildYieldsEmpty : JoinType → Bool
  | .inner | .leftSemiFilter | .rightSemiFilter | .rightSemiProject => true
  | _ => false

/-- Observable outcome of a probe run: emitted rows, consumed input
positions and the spill counters. -/
structure EmptyBuildRun where
  out : List OutRow
  inputPositions : Nat
  spilledRows : Nat
  spilledBytes : Nat
  spilledPartitions : Nat
  spilledFiles : Nat
deriving DecidableEq, Repr

/-- Modelled from the spec: the probe operator over an empty build side
under the hashProbeFinishEarlyOnEmptyBuild configuration (spec section 6;
the HashProbe code is missing from the source tree). When the flag is set
and the join type cannot produce output from an empty build, the probe
finishes without consuming any input; otherwise it consumes and processes
all of it. Nothing is spilled in either case. -/
def emptyBuildProbeRun (finishEarly : Bool) (jt : JoinType) (na : Bool)
    (f : JFilter) (nb : Nat) (probe : List Row) : EmptyBuildRun :=
  if finishEarly && emptyBuildYieldsEmpty jt then ⟨[], 0, 0, 0, 0, 0⟩
  else ⟨hashJoin jt na f nb probe [], probe.length, 0, 0, 0, 0⟩

theorem keyEq_symm (a b : KeyVal) : keyEq a b = keyEq b a := by
  cases a <;> cases b <;> simp [keyEq, BEq.comm]

theorem hashOf_eq_of_keyEq {a b : KeyVal} (h : keyEq a b = true) :
    hashOf a = hashOf b := by
  cases a <;> cases b <;> simp_all [keyEq, hashOf]

theorem keyEq_null_left (b : KeyVal) : keyEq .null b = false := by
  cases b <;> rfl

theorem keyEq_null_of_isNull {a : KeyVal} (h : a.isNull = true) (b : KeyVal) :
    keyEq a b = false := by
  cases a <;> simp_all [KeyVal.isNull, keyEq_null_left]

/-! Generic list helpers. -/

theorem keyEq_null_right (a : KeyVal) {b : KeyVal} (h : b.isNull = true) :
    keyEq a b = false := by
  rw [keyEq_symm]; exact keyEq_null_of_isNull h a

theorem rowsMatch_nonNull_build {f : JFilter} {p b : Row}
    (h : rowsMatch f p b = true) : b.key.isNull = false := by
  by_contra hb
  simp only [Bool.not_eq_false] at hb
  simp [rowsMatch, keyEq_null_right _ hb] at h

theorem rowsMatch_nonNull_probe {f : JFilter} {p b : Row}
    (h : rowsMatch f p b = true) : p.key.isNull = false := by
  by_contra hp
  simp only [Bool.not_eq_false] at hp
  simp [rowsMatch, keyEq_null_of_isNull hp] at h

theorem filter_flatMap_of_nil {α β : Type} {l : List α} (q : α → Bool)
    (f : α → List β) (h : ∀ a, q a = false → f a = []) :
    (l.filter q).flatMap f = l.flatMap f := by
  induction l with
  | nil => rfl
  | cons a t ih =>
    cases hq : q a with
    | true => simp [List.filter_cons, hq, ih]
    | false => simp [List.filter_cons, hq, ih, h a hq]

theorem isEmpty_filter {α : Type} (l : List α) (q : α → Bool) :
    (l.filter q).isEmpty = !l.any q := by
  induction l with
  | nil => rfl
  | cons a t ih =>
    cases hq : q a with
    | true => simp [List.filter_cons, hq]
    | false => simp [List.filter_cons, hq, ih]

theorem enumFrom_filter_snd {α : Type} (q : α → Bool) :
    ∀ (l : List α) (n : Nat),
      ((l.enumFrom n).filter (fun r => q r.2)).map Prod.snd = l.filter q
  | [], _ => rfl
  | a :: t, n => by
    cases hq : q a with
    | true =>
      simp [List.enumFrom_cons, List.filter_cons, hq,
        enumFrom_filter_snd q t (n + 1)]
    | false =>
      simp [List.enumFrom_cons, List.filter_cons, hq,
        enumFrom_filter_snd q t (n + 1)]

theorem isEmpty_map {α β : Type} (f : α → β) (l : List α) :
    (l.map f).isEmpty = l.isEmpty := by
  cases l <;> rfl

/-! Correctness of the hash-table lookup path. -/

theorem lookupKey_eq (jt : JoinType) {nb : Nat} (build : List Row)
    (k : KeyVal) (hnb : 0 < nb) :
    lookupKey (buildTable jt nb build) k =
      ((keptRows jt build).enum).filter (fun r => keyEq k r.2.key) := by
  have hi : hashOf k % nb < nb := Nat.mod_lt _ hnb
  unfold lookupKey buildTable
  simp only [List.getD_eq_getElem?_getD, List.getElem?_map,
    List.getElem?_range hi, Option.map_some', Option.getD_some]
  rw [List.filter_filter]
  apply List.filter_congr
  intro r _
  cases hk : keyEq k r.2.key with
  | false => simp
  | true =>
    have : hashOf r.2.key = hashOf k := by
      rw [keyEq_symm] at hk; exact hashOf_eq_of_keyEq hk
    simp [this]

theorem lookupMatches_eq (jt : JoinType) {nb : Nat} (f : JFilter)
    (build : List Row) (p : Row) (hnb : 0 < nb) :
    lookupMatches f (buildTable jt nb build) p =
      ((keptRows jt build).enum).filter (fun r => rowsMatch f p r.2) := by
  unfold lookupMatches
  rw [lookupKey_eq jt build p.key hnb, List.filter_filter]
  apply List.filter_congr
  intro r _
  simp only [rowsMatch]
  cases keyEq p.key r.2.key <;> cases f <;> simp

theorem keptRows_filter_match (jt : JoinType) (f : JFilter)
    (build : List Row) (p : Row) :
    (keptRows jt build).filter (fun b => rowsMatch f p b) =
      build.filter (fun b => rowsMatch f p b) := by
  unfold keptRows
  cases buildKeepsNullKeys jt with
  | true => rfl
  | false =>
    simp only [Bool.false_eq_true, if_false]
    rw [List.filter_filter]
    apply List.filter_congr
    intro b _
    cases hm : rowsMatch f p b with
    | false => simp
    | true => simp [rowsMatch_nonNull_build hm]

theorem lookupMatches_map_snd (jt : JoinType) {nb : Nat} (f : JFilter)
    (build : List Row) (p : Row) (hnb : 0 < nb) :
    (lookupMatches f (buildTable jt nb build) p).map Prod.snd =
      build.filter (fun b => rowsMatch f p b) := by
  rw [lookupMatches_eq jt f build p hnb, List.enum,
    enumFrom_filter_snd, keptRows_filter_match]

theorem lookupMatches_isEmpty (jt : JoinType) {nb : Nat} (f : JFilter)
    (build : List Row) (p : Row) (hnb : 0 < nb) :
    (lookupMatches f (buildTable jt nb build) p).isEmpty =
      !build.any (fun b => rowsMatch f p b) := by
  have h := congrArg List.isEmpty (lookupMatches_map_snd jt f build p hnb)
  rw [isEmpty_map] at h
  rw [h, isEmpty_filter]

theorem lookupMatches_of_null (jt : JoinType) {nb : Nat} (f : JFilter)
    (build : List Row) {p : Row} (hp : p.key.isNull = true) (hnb : 0 < nb) :
    lookupMatches f (buildTable jt nb build) p = [] := by
  rw [lookupMatches_eq jt f build p hnb]
  apply List.filter_eq_nil_iff.mpr
  intro r _
  simp [rowsMatch, keyEq_null_of_isNull hp]

/-- The matched-id set computed while probing recognises exactly the build
rows some probe row matches. -/
theorem matched_contains (jt : JoinType) {nb : Nat} (f : JFilter)
    (build probe : List Row) {i : Nat} {b : Row}
    (hib : (i, b) ∈ (keptRows jt build).enum) (hnb : 0 < nb) :
    (matchedIdxs f (buildTable jt nb build) probe).contains i =
      probe.any (fun p => rowsMatch f p b) := by
  have hgetb : (keptRows jt build)[i]? = some b :=
    List.mem_enum_iff_getElem?.mp hib
  rw [Bool.eq_iff_iff]
  simp only [List.contains_eq_any_beq, List.any_eq_true, matchedIdxs,
    List.mem_flatMap, List.mem_map, beq_iff_eq]
  constructor
  · rintro ⟨j, ⟨p, hp, r, hr, rfl⟩, rfl⟩
    rw [lookupMatches_eq jt f build p hnb] at hr
    rcases List.mem_filter.mp hr with ⟨hrmem, hrmatch⟩
    have : r.2 = b := by
      have h2 := List.mem_enum_iff_getElem?.mp hrmem
      rw [hgetb] at h2
      exact Option.some_inj.mp h2.symm
    exact ⟨p, hp, this ▸ hrmatch⟩
  · rintro ⟨p, hp, hm⟩
    refine ⟨i, ⟨p, hp, (i, b), ?_, rfl⟩, rfl⟩
    rw [lookupMatches_eq jt f build p hnb]
    exact List.mem_filter.mpr ⟨hib, hm⟩

theorem enum_filter_map {α β : Type} (l : List α) (P : Nat × α → Bool)
    (Q : α → Bool) (F : α → β) (hPQ : ∀ r ∈ l.enum, P r = Q r.2) :
    (l.enum.filter P).map (fun r => F r.2) = (l.filter Q).map F := by
  rw [List.filter_congr hPQ]
  have h1 : (l.enum.filter (fun r => Q r.2)).map (fun r => F r.2) =
      ((l.enum.filter (fun r => Q r.2)).map Prod.snd).map F := by
    rw [List.map_map]; rfl
  rw [h1, List.enum, enumFrom_filter_snd]

theorem enum_map_eq {α β : Type} (l : List α) (F : Nat × α → β) (G : α → β)
    (h : ∀ r ∈ l.enum, F r = G r.2) :
    l.enum.map F = l.map G := by
  rw [List.map_congr_left h]
  have h2 := congrArg (List.map G) (List.enum_map_snd l)
  rw [← h2, List.map_map]; rfl

/-! Per-join-type agreement of the operational hash join with the reference
SQL semantics. -/

theorem probeRowOut_null_inner {nb : Nat} (na : Bool) (f : JFilter)
    (g : GlobalStats) (build : List Row) (jt : JoinType)
    (hjt : jt = .inner ∨ jt = .leftSemiFilter ∨ jt = .rightSemiFilter ∨
      jt = .right)
    (hnb : 0 < nb) :
    ∀ p : Row, (!p.key.isNull) = false →
      probeRowOut jt na f g (buildTable jt nb build) p = [] := by
  intro p hp
  rw [Bool.not_eq_false'] at hp
  have hms := lookupMatches_of_null jt f build hp hnb
  rcases hjt with rfl | rfl | rfl | rfl <;>
    simp [probeRowOut, hms]

theorem flatMap_if_singleton {α β : Type} (l : List α) (c : α → Bool)
    (F : α → β) :
    (l.flatMap fun a => if c a then [F a] else []) = (l.filter c).map F := by
  induction l with
  | nil => rfl
  | cons a t ih =>
    rw [List.flatMap_cons, ih, List.filter_cons]
    cases c a <;> simp

theorem refJoinG_statsOf (jt : JoinType) (na : Bool) (f : JFilter)
    (probe build : List Row) :
    refJoinG jt na f (statsOf probe build) probe build =
      refJoin jt na f probe build := by
  cases jt <;> rfl

theorem coreJoin_inner_eq (f : JFilter) {nb : Nat} (g : GlobalStats)
    (probe build : List Row) (hnb : 0 < nb) :
    coreJoin .inner false f nb g probe build =
      refJoinG .inner false f g probe build := by
  unfold coreJoin refJoinG
  simp only [Bool.false_and, Bool.false_eq_true, if_false, probeDropsNullKeys,
    if_true, postOut, List.append_nil]
  rw [filter_flatMap_of_nil _ _
    (probeRowOut_null_inner false f g build .inner (Or.inl rfl) hnb)]
  apply List.flatMap_congr
  intro p _
  show (lookupMatches f (buildTable .inner nb build) p).map _ = _
  rw [← lookupMatches_map_snd .inner f build p hnb, List.map_map]
  rfl

theorem coreJoin_left_eq (f : JFilter) {nb : Nat} (g : GlobalStats)
    (probe build : List Row) (hnb : 0 < nb) :
    coreJoin .left false f nb g probe build =
      refJoinG .left false f g probe build := by
  unfold coreJoin refJoinG
  simp only [Bool.false_and, Bool.false_eq_true, if_false, probeDropsNullKeys,
    postOut, List.append_nil]
  apply List.flatMap_congr
  intro p _
  show (if (lookupMatches f (buildTable .left nb build) p).isEmpty then _
    else (lookupMatches f (buildTable .left nb build) p).map _) = _
  rw [lookupMatches_isEmpty .left f build p hnb, ← isEmpty_filter,
    ← lookupMatches_map_snd .left f build p hnb, isEmpty_map, List.map_map]
  rfl

theorem coreJoin_leftSemiFilter_eq (f : JFilter) {nb : Nat} (g : GlobalStats)
    (probe build : List Row) (hnb : 0 < nb) :
    coreJoin .leftSemiFilter false f nb g probe build =
      refJoinG .leftSemiFilter false f g probe build := by
  unfold coreJoin refJoinG
  simp only [Bool.false_and, Bool.false_eq_true, if_false, probeDropsNullKeys,
    if_true, postOut, List.append_nil]
  rw [filter_flatMap_of_nil _ _
    (probeRowOut_null_inner false f g build _ (Or.inr (Or.inl rfl)) hnb)]
  rw [List.flatMap_congr (g := fun p =>
    if build.any (fun b => rowsMatch f p b)
    then [(⟨some p, none, none⟩ : OutRow)] else []) (fun p _ => by
      show (if (lookupMatches f (buildTable .leftSemiFilter nb build) p).isEmpty
        then _ else _) = _
      rw [lookupMatches_isEmpty .leftSemiFilter f build p hnb]
      cases h : build.any (fun b => rowsMatch f p b) <;> simp [h])]
  rw [flatMap_if_singleton]

theorem flatMap_singleton_map {α β : Type} (l : List α) (F : α → β) :
    (l.flatMap fun a => [F a]) = l.map F := by
  induction l with
  | nil => rfl
  | cons a t ih => rw [List.flatMap_cons, ih]; rfl

theorem any_keyEq_symm (l : List Row) (k : KeyVal) :
    (l.any fun x => keyEq x.key k) = l.any fun x => keyEq k x.key := by
  have : (fun x : Row => keyEq x.key k) = fun x : Row => keyEq k x.key := by
    funext x; rw [keyEq_symm]
  rw [this]

theorem coreJoin_anti_eq (f : JFilter) {nb : Nat} (g : GlobalStats)
    (probe build : List Row) (hnb : 0 < nb) :
    coreJoin .anti false f nb g probe build =
      refJoinG .anti false f g probe build := by
  unfold coreJoin refJoinG
  simp only [Bool.false_and, Bool.false_eq_true, if_false, probeDropsNullKeys,
    postOut, List.append_nil]
  rw [List.flatMap_congr (g := fun p =>
    if !build.any (fun b => rowsMatch f p b)
    then [(⟨some p, none, none⟩ : OutRow)] else []) (fun p _ => by
      show (if (lookupMatches f (buildTable .anti nb build) p).isEmpty
        then _ else _) = _
      rw [lookupMatches_isEmpty .anti f build p hnb])]
  rw [flatMap_if_singleton]

theorem any_congr_mem {α : Type} {l : List α} {p q : α → Bool}
    (h : ∀ a ∈ l, p a = q a) : l.any p = l.any q := by
  induction l with
  | nil => rfl
  | cons a t ih =>
    simp only [List.any_cons, h a (by simp)]
    rw [ih (fun x hx => h x (by simp [hx]))]

theorem coreJoin_antiNA_eq {nb : Nat} (g : GlobalStats)
    (probe build : List Row) (hnb : 0 < nb) :
    coreJoin .anti true none nb g probe build =
      refJoinG .anti true none g probe build := by
  unfold coreJoin refJoinG
  rw [if_pos (show (true && (JoinType.anti == JoinType.anti)) = true from rfl),
    if_pos (show (true : Bool) = true from rfl)]
  cases g.buildEmpty with
  | true =>
    rw [if_pos rfl]
    have hcong : ∀ p ∈ probe,
        notInBuildG true g.buildHasNull build p.key = true := by
      intro p _; rfl
    show List.map (fun p => (⟨some p, none, none⟩ : OutRow)) probe =
      List.map (fun p => (⟨some p, none, none⟩ : OutRow))
        (List.filter
          (fun p => notInBuildG true g.buildHasNull build p.key) probe)
    rw [List.filter_congr (q := fun _ => true) hcong, List.filter_true]
  | false =>
    rw [if_neg (by simp)]
    cases g.buildHasNull with
    | true =>
      rw [if_pos rfl]
      have hcong : ∀ p ∈ probe,
          notInBuildG false true build p.key = false := by
        intro p _; unfold notInBuildG; simp
      show ([] : List OutRow) =
        List.map (fun p => (⟨some p, none, none⟩ : OutRow))
          (List.filter (fun p => notInBuildG false true build p.key) probe)
      rw [List.filter_congr (q := fun _ => false) hcong, List.filter_false]
      rfl
    | false =>
      rw [if_neg (by simp)]
      rw [List.flatMap_congr (g := fun p =>
        if !build.any (fun b => rowsMatch none p b)
        then [(⟨some p, none, none⟩ : OutRow)] else []) (fun p _ => by
          show (if (lookupMatches none (buildTable .anti nb build) p).isEmpty
            then _ else _) = _
          rw [lookupMatches_isEmpty .anti none build p hnb])]
      rw [flatMap_if_singleton, List.filter_filter]
      show _ = List.map (fun p => (⟨some p, none, none⟩ : OutRow))
        (List.filter (fun p => notInBuildG false false build p.key) probe)
      congr 1
      apply List.filter_congr
      intro p _
      unfold notInBuildG
      simp [rowsMatch, Bool.and_comm]

theorem coreJoin_leftSemiProject_eq (f : JFilter) {nb : Nat}
    (g : GlobalStats) (probe build : List Row) (hnb : 0 < nb) :
    coreJoin .leftSemiProject false f nb g probe build =
      refJoinG .leftSemiProject false f g probe build := by
  unfold coreJoin refJoinG
  simp only [Bool.false_and, Bool.false_eq_true, if_false, probeDropsNullKeys,
    postOut, List.append_nil]
  rw [List.flatMap_congr (g := fun p =>
    [(⟨some p, none, some (build.any fun b => rowsMatch f p b)⟩ : OutRow)])
    (fun p _ => by
      show [(⟨some p, none,
        some (!(lookupMatches f (buildTable .leftSemiProject nb build) p).isEmpty)⟩ :
          OutRow)] = _
      rw [lookupMatches_isEmpty .leftSemiProject f build p hnb, Bool.not_not])]
  rw [flatMap_singleton_map]

theorem coreJoin_leftSemiProjectNA_eq {nb : Nat} (g : GlobalStats)
    (probe build : List Row) (hnb : 0 < nb) :
    coreJoin .leftSemiProject true none nb g probe build =
      refJoinG .leftSemiProject true none g probe build := by
  unfold coreJoin refJoinG
  rw [if_neg (show ¬(true && (JoinType.leftSemiProject == JoinType.anti)) = true
    from fun h => Bool.noConfusion h)]
  simp only [probeDropsNullKeys, Bool.false_eq_true, if_false]
  rw [show postOut .leftSemiProject true g
      (buildTable .leftSemiProject nb build)
      (matchedIdxs none (buildTable .leftSemiProject nb build) probe) = []
    from rfl, List.append_nil]
  rw [List.flatMap_congr (g := fun p =>
    [(⟨some p, none, inFlagG g.buildEmpty g.buildHasNull build p.key⟩ :
      OutRow)]) (fun p _ => by
      show [(⟨some p, none, _⟩ : OutRow)] = _
      have hms := lookupMatches_isEmpty .leftSemiProject none build p hnb
      unfold inFlagG
      simp only [hms, Bool.not_not, rowsMatch, Bool.and_true])]
  rw [flatMap_singleton_map, if_pos trivial]

theorem coreJoin_right_eq (f : JFilter) {nb : Nat} (g : GlobalStats)
    (probe build : List Row) (hnb : 0 < nb) :
    coreJoin .right false f nb g probe build =
      refJoinG .right false f g probe build := by
  unfold coreJoin refJoinG
  simp only [Bool.false_and, Bool.false_eq_true, if_false, probeDropsNullKeys]
  congr 1
  · apply List.flatMap_congr
    intro p _
    show (lookupMatches f (buildTable .right nb build) p).map _ = _
    rw [← lookupMatches_map_snd .right f build p hnb, List.map_map]
    rfl
  · show ((keptRows .right build).enum.filter _).map _ = _
    rw [enum_filter_map (Q := fun b => !probe.any fun p => rowsMatch f p b)
      (F := fun b => (⟨none, some b, none⟩ : OutRow)) _ _ (fun r hr => by
        rw [matched_contains .right f build probe
          (by exact (Prod.mk.eta (p := r)) ▸ hr) hnb])]
    rfl

theorem coreJoin_full_eq (f : JFilter) {nb : Nat} (g : GlobalStats)
    (probe build : List Row) (hnb : 0 < nb) :
    coreJoin .full false f nb g probe build =
      refJoinG .full false f g probe build := by
  unfold coreJoin refJoinG
  simp only [Bool.false_and, Bool.false_eq_true, if_false, probeDropsNullKeys]
  congr 1
  · apply List.flatMap_congr
    intro p _
    show (if (lookupMatches f (buildTable .full nb build) p).isEmpty then _
      else (lookupMatches f (buildTable .full nb build) p).map _) = _
    rw [lookupMatches_isEmpty .full f build p hnb, ← isEmpty_filter,
      ← lookupMatches_map_snd .full f build p hnb, isEmpty_map, List.map_map]
    rfl
  · show ((keptRows .full build).enum.filter _).map _ = _
    rw [enum_filter_map (Q := fun b => !probe.any fun p => rowsMatch f p b)
      (F := fun b => (⟨none, some b, none⟩ : OutRow)) _ _ (fun r hr => by
        rw [matched_contains .full f build probe
          (by exact (Prod.mk.eta (p := r)) ▸ hr) hnb])]
    rfl

theorem coreJoin_rightSemiFilter_eq (f : JFilter) {nb : Nat}
    (g : GlobalStats) (probe build : List Row) (hnb : 0 < nb) :
    coreJoin .rightSemiFilter false f nb g probe build =
      refJoinG .rightSemiFilter false f g probe build := by
  unfold coreJoin refJoinG
  simp only [Bool.false_and, Bool.false_eq_true, if_false, probeDropsNullKeys,
    if_true]
  rw [List.flatMap_eq_nil_iff.mpr (fun p _ => by
    show probeRowOut .rightSemiFilter false f _ _ p = []
    rfl)]
  rw [List.nil_append]
  show ((keptRows .rightSemiFilter build).enum.filter _).map _ = _
  rw [enum_filter_map
    (Q := fun b => probe.any fun p => rowsMatch f p b)
    (F := fun b => (⟨none, some b, none⟩ : OutRow)) _ _ (fun r hr => by
      rw [matched_contains .rightSemiFilter f build _
        (by exact (Prod.mk.eta (p := r)) ▸ hr) hnb, List.any_filter]
      apply any_congr_mem
      intro p _
      cases h : rowsMatch f p r.2 with
      | false => simp
      | true => simp [rowsMatch_nonNull_probe h])]
  show ((keptRows .rightSemiFilter build).filter _).map _ = _
  unfold keptRows
  simp only [show buildKeepsNullKeys .rightSemiFilter = false from rfl,
    Bool.false_eq_true, if_false]
  rw [List.filter_filter]
  congr 1
  apply List.filter_congr
  intro b _
  cases h : probe.any (fun p => rowsMatch f p b) with
  | false => simp
  | true =>
    rcases List.any_eq_true.mp h with ⟨p, _, hm⟩
    simp [rowsMatch_nonNull_build hm]

theorem coreJoin_rightSemiProject_eq (f : JFilter) {nb : Nat}
    (g : GlobalStats) (probe build : List Row) (hnb : 0 < nb) :
    coreJoin .rightSemiProject false f nb g probe build =
      refJoinG .rightSemiProject false f g probe build := by
  unfold coreJoin refJoinG
  simp only [Bool.false_and, Bool.false_eq_true, if_false, probeDropsNullKeys]
  rw [List.flatMap_eq_nil_iff.mpr (fun p _ => by
    show probeRowOut .rightSemiProject false f _ _ p = []
    rfl)]
  rw [List.nil_append]
  show (keptRows .rightSemiProject build).enum.map _ = _
  rw [enum_map_eq (G := fun b =>
    (⟨none, some b, some (probe.any fun p => rowsMatch f p b)⟩ : OutRow))
    _ _ (fun r hr => by
      rw [matched_contains .rightSemiProject f build _
        (by exact (Prod.mk.eta (p := r)) ▸ hr) hnb]
      rfl)]
  rfl

theorem coreJoin_rightSemiProjectNA_eq {nb : Nat} (g : GlobalStats)
    (probe build : List Row) (hnb : 0 < nb) :
    coreJoin .rightSemiProject true none nb g probe build =
      refJoinG .rightSemiProject true none g probe build := by
  unfold coreJoin refJoinG
  rw [if_neg (show ¬(true && (JoinType.rightSemiProject == JoinType.anti)) = true
    from fun h => Bool.noConfusion h)]
  simp only [probeDropsNullKeys, Bool.false_eq_true, if_false]
  rw [List.flatMap_eq_nil_iff.mpr (fun p _ => by
    show probeRowOut .rightSemiProject true none _ _ p = []
    rfl)]
  rw [List.nil_append]
  show (keptRows .rightSemiProject build).enum.map _ = _
  rw [enum_map_eq (G := fun b =>
    (⟨none, some b, inFlagG g.probeEmpty g.probeHasNull probe b.key⟩ :
      OutRow)) _ _ (fun r hr => by
      rw [matched_contains .rightSemiProject none build _
        (by exact (Prod.mk.eta (p := r)) ▸ hr) hnb]
      unfold inFlagG
      simp only [rowsMatch, Bool.and_true, any_keyEq_symm, if_true])
  ]
  rfl

/-- The operational hash join with externally supplied global statistics
agrees with the statistics-parameterized reference semantics for every legal
join specification. -/
theorem coreJoin_eq_refJoinG (jt : JoinType) (na : Bool) (f : JFilter)
    {nb : Nat} (g : GlobalStats) (probe build : List Row) (hnb : 0 < nb)
    (hleg : LegalSpec jt na f) :
    coreJoin jt na f nb g probe build = refJoinG jt na f g probe build := by
  cases na with
  | false =>
    cases jt
    case inner => exact coreJoin_inner_eq f g probe build hnb
    case left => exact coreJoin_left_eq f g probe build hnb
    case right => exact coreJoin_right_eq f g probe build hnb
    case full => exact coreJoin_full_eq f g probe build hnb
    case leftSemiFilter => exact coreJoin_leftSemiFilter_eq f g probe build hnb
    case rightSemiFilter =>
      exact coreJoin_rightSemiFilter_eq f g probe build hnb
    case leftSemiProject =>
      exact coreJoin_leftSemiProject_eq f g probe build hnb
    case rightSemiProject =>
      exact coreJoin_rightSemiProject_eq f g probe build hnb
    case anti => exact coreJoin_anti_eq f g probe build hnb
  | true =>
    obtain ⟨hjt, hf⟩ := hleg rfl
    subst hf
    rcases hjt with rfl | rfl | rfl
    · exact coreJoin_antiNA_eq g probe build hnb
    · exact coreJoin_leftSemiProjectNA_eq g probe build hnb
    · exact coreJoin_rightSemiProjectNA_eq g probe build hnb

/-- C1: For every supported join type (the eight variants plus null-aware
forms, under the planner's legality rules) and for every pair of probe and
build inputs, the multiset of output rows emitted by the hash join equals
the result of the reference SQL semantics for that join over the same
inputs. -/
theorem hashJoin_matches_reference (jt : JoinType) (na : Bool) (f : JFilter)
    {nb : Nat} (probe build : List Row) (hnb : 0 < nb)
    (hleg : LegalSpec jt na f) :
    Multiset.ofList (hashJoin jt na f nb probe build) =
      Multiset.ofList (refJoin jt na f probe build) := by
  apply congrArg Multiset.ofList
  rw [show hashJoin jt na f nb probe build =
      coreJoin jt na f nb (statsOf probe build) probe build from rfl,
    coreJoin_eq_refJoinG jt na f _ probe build hnb hleg,
    refJoinG_statsOf]

/-- Concrete instantiation of C1: the inner join of spec scenario 2
(probe keys [1,2,3], build keys [2,3,4]) with 4 hash buckets. -/
theorem hashJoin_matches_reference_witness :
    0 < 4 ∧ LegalSpec .inner false none ∧
    Multiset.ofList (hashJoin .inner false none 4
        [⟨.int 1, 10⟩, ⟨.int 2, 20⟩, ⟨.int 3, 30⟩]
        [⟨.int 2, 5⟩, ⟨.int 3, 6⟩, ⟨.int 4, 7⟩]) =
      Multiset.ofList (refJoin .inner false none
        [⟨.int 1, 10⟩, ⟨.int 2, 20⟩, ⟨.int 3, 30⟩]
        [⟨.int 2, 5⟩, ⟨.int 3, 6⟩, ⟨.int 4, 7⟩]) :=
  ⟨by decide, fun h => absurd h (by simp),
    hashJoin_matches_reference .inner false none _ _ (by decide)
      (fun h => absurd h (by simp))⟩

/-- C3: For a null-aware anti join, whenever the build side contains at
least one null key the join output is empty (in particular, regardless of
whether any probe key could be proved non-null). -/
theorem nullAwareAnti_buildNull_empty {nb : Nat} (probe build : List Row)
    (hnull : build.any (fun b => b.key.isNull) = true) :
    hashJoin .anti true none nb probe build = [] := by
  have hne : build.isEmpty = false := by
    cases build with
    | nil => simp at hnull
    | cons a t => rfl
  unfold hashJoin coreJoin
  rw [if_pos (show (true && (JoinType.anti == JoinType.anti)) = true from rfl)]
  rw [show (statsOf probe build).buildEmpty = false from hne,
    show (statsOf probe build).buildHasNull = true from hnull]
  simp

/-- Concrete instantiation of C3 at spec scenario 4: probe keys [1,2,3]
against build keys [null,2] produce an empty output. -/
theorem nullAwareAnti_buildNull_empty_witness :
    ([⟨.null, 0⟩, (⟨.int 2, 0⟩ : Row)].any (fun b => b.key.isNull)) = true ∧
    hashJoin .anti true none 4 [⟨.int 1, 0⟩, ⟨.int 2, 0⟩, ⟨.int 3, 0⟩]
      [⟨.null, 0⟩, ⟨.int 2, 0⟩] = [] :=
  ⟨by decide, nullAwareAnti_buildNull_empty _ _ (by decide)⟩

/-- C4 counterexample: a null key on the probe side does NOT make the whole
null-aware anti join empty. With probe keys [null, 5] and build key [2]
(no build-side nulls) the join emits the row with key 5, in agreement with
the reference NOT IN semantics. -/
theorem nullAwareAnti_probeNull_counterexample :
    (([⟨.null, 0⟩, (⟨.int 5, 0⟩ : Row)].any (fun p => p.key.isNull)) = true) ∧
    hashJoin .anti true none 4 [⟨.null, 0⟩, ⟨.int 5, 0⟩] [⟨.int 2, 0⟩] =
      [⟨some ⟨.int 5, 0⟩, none, none⟩] ∧
    refJoin .anti true none [⟨.null, 0⟩, ⟨.int 5, 0⟩] [⟨.int 2, 0⟩] =
      [⟨some ⟨.int 5, 0⟩, none, none⟩] := by
  refine ⟨by decide, by decide, by decide⟩

/-- C4 (amended): in a null-aware anti join over a non-empty build side,
every null-key probe row is dropped eagerly and contributes no output row;
the join of the full probe input equals the join of the probe input with
null-key rows removed. (The whole output is empty only when the build side
contains a null key, which is C3.) -/
theorem nullAwareAnti_probeNull_dropped {nb : Nat} (probe build : List Row)
    (hne : build ≠ []) :
    hashJoin .anti true none nb probe build =
      hashJoin .anti true none nb
        (probe.filter (fun p => !p.key.isNull)) build := by
  have hE : build.isEmpty = false := by
    cases build with
    | nil => exact absurd rfl hne
    | cons a t => rfl
  unfold hashJoin coreJoin
  rw [if_pos (show (true && (JoinType.anti == JoinType.anti)) = true from rfl),
    if_pos (show (true && (JoinType.anti == JoinType.anti)) = true from rfl)]
  rw [show (statsOf probe build).buildEmpty = false from hE,
    show (statsOf (probe.filter (fun p => !p.key.isNull)) build).buildEmpty
      = false from hE]
  simp only [Bool.false_eq_true, if_false]
  cases hN : build.any (fun b => b.key.isNull) with
  | true =>
    rw [show (statsOf probe build).buildHasNull = true from hN,
      show (statsOf (probe.filter (fun p => !p.key.isNull)) build).buildHasNull
        = true from hN]
    rfl
  | false =>
    rw [show (statsOf probe build).buildHasNull = false from hN,
      show (statsOf (probe.filter (fun p => !p.key.isNull)) build).buildHasNull
        = false from hN]
    simp only [Bool.false_eq_true, if_false]
    rw [List.filter_filter]
    have hq : List.filter (fun a => !a.key.isNull && !a.key.isNull) probe =
        List.filter (fun a => !a.key.isNull) probe :=
      List.filter_congr (fun a _ => Bool.and_self _)
    rw [hq]
    rfl

/-- Concrete instantiation of C4 (amended): dropping the null-key probe row
leaves the join of probe [null,5] against build [2] unchanged. -/
theorem nullAwareAnti_probeNull_dropped_witness :
    ([(⟨.int 2, 0⟩ : Row)] ≠ []) ∧
    hashJoin .anti true none 4 [⟨.null, 0⟩, ⟨.int 5, 0⟩] [⟨.int 2, 0⟩] =
      hashJoin .anti true none 4
        (List.filter (fun p => !p.key.isNull) [⟨.null, 0⟩, ⟨.int 5, 0⟩])
        [⟨.int 2, 0⟩] :=
  ⟨by decide, nullAwareAnti_probeNull_dropped _ _ (by decide)⟩

/-- C5: NaN join keys with different bit patterns compare equal and join as
equal: a probe row keyed by any NaN representation matches a build row keyed
by any other NaN representation, both in a plain inner join and in the left
join of HashJoinTest.nanKeys (probe NaN rows with two distinct bit patterns
against a build side holding a third pattern and the non-NaN key 1). -/
theorem nanKeys_join_equal (b1 b2 b3 : Nat) (d1 d2 : Int) :
    keyEq (.fnan b1) (.fnan b2) = true ∧
    hashJoin .inner false none 8 [⟨.fnan b1, d1⟩] [⟨.fnan b2, d2⟩] =
      [⟨some ⟨.fnan b1, d1⟩, some ⟨.fnan b2, d2⟩, none⟩] ∧
    hashJoin .left false none 8 [⟨.fnan b1, 1⟩, ⟨.fnan b2, 2⟩]
        [⟨.fnan b3, 0⟩, ⟨.fnum 1, 0⟩] =
      [⟨some ⟨.fnan b1, 1⟩, some ⟨.fnan b3, 0⟩, none⟩,
       ⟨some ⟨.fnan b2, 2⟩, some ⟨.fnan b3, 0⟩, none⟩] := by
  refine ⟨rfl, ?_, ?_⟩
  · rw [show hashJoin .inner false none 8 [⟨.fnan b1, d1⟩] [⟨.fnan b2, d2⟩] =
        coreJoin .inner false none 8
          (statsOf [⟨.fnan b1, d1⟩] [⟨.fnan b2, d2⟩])
          [⟨.fnan b1, d1⟩] [⟨.fnan b2, d2⟩] from rfl,
      coreJoin_inner_eq none _ _ _ (by decide)]
    simp [refJoinG, rowsMatch, keyEq]
  · rw [show hashJoin .left false none 8 [⟨.fnan b1, 1⟩, ⟨.fnan b2, 2⟩]
          [⟨.fnan b3, 0⟩, ⟨.fnum 1, 0⟩] =
        coreJoin .left false none 8
          (statsOf [⟨.fnan b1, 1⟩, ⟨.fnan b2, 2⟩]
            [⟨.fnan b3, 0⟩, ⟨.fnum 1, 0⟩])
          [⟨.fnan b1, 1⟩, ⟨.fnan b2, 2⟩]
          [⟨.fnan b3, 0⟩, ⟨.fnum 1, 0⟩] from rfl,
      coreJoin_left_eq none _ _ _ (by decide)]
    simp [refJoinG, rowsMatch, keyEq]

/-! Partitioning a list by a bounded index function and concatenating the
parts is a permutation of the list. -/

theorem count_filter_ite {α : Type} [DecidableEq α] (l : List α)
    (p : α → Bool) (a : α) :
    (l.filter p).count a = if p a then l.count a else 0 := by
  cases hp : p a with
  | true => simp [List.count_filter, hp]
  | false =>
    simp only [if_false, Bool.false_eq_true]
    rw [List.count_eq_zero]
    intro hmem
    rw [List.mem_filter] at hmem
    rw [hmem.2] at hp
    exact Bool.noConfusion hp

theorem count_flatMap {α β : Type} [DecidableEq β] (l : List α)
    (f : α → List β) (b : β) :
    (l.flatMap f).count b = (l.map (fun a => (f a).count b)).sum := by
  induction l with
  | nil => rfl
  | cons a t ih => simp [List.flatMap_cons, List.count_append, ih]

theorem sum_map_ite_zero (c : Nat) :
    ∀ (n i0 : Nat), n ≤ i0 →
      ((List.range n).map (fun i => if i0 == i then c else 0)).sum = 0 := by
  intro n
  induction n with
  | zero => intro i0 _; rfl
  | succ m ih =>
    intro i0 h
    rw [List.range_succ, List.map_append, List.sum_append, ih i0 (by omega)]
    have h1 : i0 ≠ m := by omega
    have h2 : (i0 == m) = false := by simp [h1]
    simp only [List.map_cons, List.map_nil, List.sum_cons, List.sum_nil]
    rw [if_neg (by simp [h1])]
    rfl

theorem sum_map_ite_eq (c : Nat) :
    ∀ (n i0 : Nat), i0 < n →
      ((List.range n).map (fun i => if i0 == i then c else 0)).sum = c := by
  intro n
  induction n with
  | zero => intro i0 h; omega
  | succ m ih =>
    intro i0 h
    rw [List.range_succ, List.map_append, List.sum_append]
    by_cases hm : i0 = m
    · subst hm
      rw [sum_map_ite_zero c i0 i0 (Nat.le_refl i0)]
      simp
    · have h2 : (i0 == m) = false := by simp [hm]
      rw [ih i0 (by omega)]
      simp only [List.map_cons, List.map_nil, List.sum_cons, List.sum_nil]
      rw [if_neg (by simp [hm])]
      rfl

theorem partition_flatMap_perm {α : Type} [DecidableEq α] (np : Nat)
    (pf : α → Nat) (hpf : ∀ a, pf a < np) (l : List α) :
    List.Perm
      ((List.range np).flatMap fun i => l.filter (fun a => pf a == i)) l := by
  rw [List.perm_iff_count]
  intro a
  rw [count_flatMap]
  have hmap : (List.range np).map
      (fun i => (l.filter (fun x => pf x == i)).count a) =
      (List.range np).map (fun i => if pf a == i then l.count a else 0) := by
    apply List.map_congr_left
    intro i _
    rw [count_filter_ite]
  rw [hmap, sum_map_ite_eq (l.count a) np (pf a) (hpf a)]

theorem flatMap_append_perm {α β : Type} (l : List α) (f g : α → List β) :
    List.Perm (l.flatMap fun a => f a ++ g a) (l.flatMap f ++ l.flatMap g) := by
  induction l with
  | nil => simp
  | cons a t ih =>
    simp only [List.flatMap_cons]
    have h1 : List.Perm (f a ++ g a ++ t.flatMap fun x => f x ++ g x)
        (f a ++ g a ++ (t.flatMap f ++ t.flatMap g)) :=
      List.Perm.append_left _ ih
    refine h1.trans ?_
    rw [List.append_assoc, List.append_assoc]
    apply List.Perm.append_left
    rw [← List.append_assoc, ← List.append_assoc]
    apply List.Perm.append_right
    exact List.perm_append_comm

/-! Hash partitioning respects key matching: matching rows always land in
the same partition, so per-partition lookups agree with global ones. -/

theorem keyEq_of_rowsMatch {f : JFilter} {p b : Row}
    (h : rowsMatch f p b = true) : keyEq p.key b.key = true := by
  simp only [rowsMatch, Bool.and_eq_true] at h
  exact h.1

theorem partOf_eq_of_keyEq {sb np : Nat} {a b : KeyVal}
    (h : keyEq a b = true) : partOf sb np a = partOf sb np b := by
  unfold partOf
  rw [hashOf_eq_of_keyEq h]

theorem part_filter_match (f : JFilter) (sb np i : Nat) (build : List Row)
    (p : Row) (hp : (partOf sb np p.key == i) = true) :
    (build.filter (fun r => partOf sb np r.key == i)).filter
      (fun b => rowsMatch f p b) =
    build.filter (fun b => rowsMatch f p b) := by
  rw [List.filter_filter]
  apply List.filter_congr
  intro b _
  cases hm : rowsMatch f p b with
  | false => simp
  | true =>
    have he : partOf sb np b.key = partOf sb np p.key :=
      (partOf_eq_of_keyEq (keyEq_of_rowsMatch hm)).symm
    have hpi : partOf sb np p.key = i := by simpa using hp
    simp [he, hpi]

theorem part_any_match (f : JFilter) (sb np i : Nat) (probe : List Row)
    (b : Row) (hb : (partOf sb np b.key == i) = true) :
    (probe.filter (fun r => partOf sb np r.key == i)).any
      (fun p => rowsMatch f p b) =
    probe.any (fun p => rowsMatch f p b) := by
  rw [List.any_filter]
  apply any_congr_mem
  intro p _
  cases hm : rowsMatch f p b with
  | false => simp
  | true =>
    have he : partOf sb np p.key = partOf sb np b.key :=
      partOf_eq_of_keyEq (keyEq_of_rowsMatch hm)
    have hbi : partOf sb np b.key = i := by simpa using hb
    simp [he, hbi]

theorem part_any_match_build (f : JFilter) (sb np i : Nat)
    (build : List Row) (p : Row) (hp : (partOf sb np p.key == i) = true) :
    (build.filter (fun r => partOf sb np r.key == i)).any
      (fun b => rowsMatch f p b) =
    build.any (fun b => rowsMatch f p b) := by
  rw [List.any_filter]
  apply any_congr_mem
  intro b _
  cases hm : rowsMatch f p b with
  | false => simp
  | true =>
    have he : partOf sb np b.key = partOf sb np p.key :=
      (partOf_eq_of_keyEq (keyEq_of_rowsMatch hm)).symm
    have hpi : partOf sb np p.key = i := by simpa using hp
    simp [he, hpi]

theorem part_any_keyEq (sb np i : Nat) (l : List Row) (k : KeyVal)
    (hk : (partOf sb np k == i) = true) :
    (l.filter (fun r => partOf sb np r.key == i)).any
      (fun x => keyEq k x.key) =
    l.any (fun x => keyEq k x.key) := by
  rw [List.any_filter]
  apply any_congr_mem
  intro x _
  cases hm : keyEq k x.key with
  | false => simp
  | true =>
    have he : partOf sb np x.key = partOf sb np k :=
      (partOf_eq_of_keyEq hm).symm
    have hki : partOf sb np k = i := by simpa using hk
    simp [he, hki]

theorem filter_swap {α : Type} (l : List α) (p q : α → Bool) :
    (l.filter p).filter q = (l.filter q).filter p := by
  rw [List.filter_filter, List.filter_filter]
  apply List.filter_congr
  intro a _
  rw [Bool.and_comm]

theorem partition_flatMap_rows {β : Type} (sb np : Nat) (hnp : 0 < np)
    (l : List Row) (body : Row → List β) :
    List.Perm
      ((List.range np).flatMap fun i =>
        (l.filter (fun r => partOf sb np r.key == i)).flatMap body)
      (l.flatMap body) := by
  rw [← List.flatMap_assoc]
  exact (partition_flatMap_perm np _
    (fun a => Nat.mod_lt _ hnp) l).flatMap_right body

theorem partition_map_rows {β : Type} (sb np : Nat) (hnp : 0 < np)
    (l : List Row) (body : Row → β) :
    List.Perm
      ((List.range np).flatMap fun i =>
        (l.filter (fun r => partOf sb np r.key == i)).map body)
      (l.map body) := by
  rw [← List.map_flatMap]
  exact (partition_flatMap_perm np _
    (fun a => Nat.mod_lt _ hnp) l).map body

/-- Processing every hash partition separately (with the eagerly computed
global statistics) and concatenating the outputs is, up to permutation, the
same as processing the whole input at once. -/
theorem refJoinG_partition_perm (jt : JoinType) (na : Bool) (f : JFilter)
    (g : GlobalStats) (sb np : Nat) (hnp : 0 < np) (probe build : List Row) :
    List.Perm
      ((List.range np).flatMap fun i =>
        refJoinG jt na f g
          (probe.filter (fun r => partOf sb np r.key == i))
          (build.filter (fun r => partOf sb np r.key == i)))
      (refJoinG jt na f g probe build) := by
  cases jt with
  | inner =>
    rw [List.flatMap_congr (g := fun i =>
      (probe.filter (fun r => partOf sb np r.key == i)).flatMap fun p =>
        (build.filter (fun b => rowsMatch f p b)).map fun b =>
          (⟨some p, some b, none⟩ : OutRow)) (fun i _ => by
        apply List.flatMap_congr
        intro p hp
        rw [part_filter_match f sb np i build p (List.mem_filter.mp hp).2])]
    exact partition_flatMap_rows sb np hnp probe _
  | left =>
    rw [List.flatMap_congr (g := fun i =>
      (probe.filter (fun r => partOf sb np r.key == i)).flatMap fun p =>
        if (build.filter (fun b => rowsMatch f p b)).isEmpty
        then [(⟨some p, none, none⟩ : OutRow)]
        else (build.filter (fun b => rowsMatch f p b)).map fun b =>
          ⟨some p, some b, none⟩) (fun i _ => by
        apply List.flatMap_congr
        intro p hp
        rw [part_filter_match f sb np i build p (List.mem_filter.mp hp).2])]
    exact partition_flatMap_rows sb np hnp probe _
  | right =>
    rw [List.flatMap_congr (g := fun i =>
      ((probe.filter (fun r => partOf sb np r.key == i)).flatMap fun p =>
        (build.filter (fun b => rowsMatch f p b)).map fun b =>
          (⟨some p, some b, none⟩ : OutRow)) ++
      (((build.filter (fun b => !probe.any (fun p => rowsMatch f p b))).filter
          (fun r => partOf sb np r.key == i)).map fun b =>
        (⟨none, some b, none⟩ : OutRow))) (fun i _ => by
        show _ ++ _ = _
        congr 1
        · apply List.flatMap_congr
          intro p hp
          rw [part_filter_match f sb np i build p (List.mem_filter.mp hp).2]
        · rw [List.filter_congr (fun b hb => by
            rw [part_any_match f sb np i probe b (List.mem_filter.mp hb).2]),
            filter_swap])]
    refine (flatMap_append_perm _ _ _).trans ?_
    exact List.Perm.append (partition_flatMap_rows sb np hnp probe _)
      (partition_map_rows sb np hnp
        (build.filter (fun b => !probe.any (fun p => rowsMatch f p b))) _)
  | full =>
    rw [List.flatMap_congr (g := fun i =>
      ((probe.filter (fun r => partOf sb np r.key == i)).flatMap fun p =>
        if (build.filter (fun b => rowsMatch f p b)).isEmpty
        then [(⟨some p, none, none⟩ : OutRow)]
        else (build.filter (fun b => rowsMatch f p b)).map fun b =>
          ⟨some p, some b, none⟩) ++
      (((build.filter (fun b => !probe.any (fun p => rowsMatch f p b))).filter
          (fun r => partOf sb np r.key == i)).map fun b =>
        (⟨none, some b, none⟩ : OutRow))) (fun i _ => by
        show _ ++ _ = _
        congr 1
        · apply List.flatMap_congr
          intro p hp
          rw [part_filter_match f sb np i build p (List.mem_filter.mp hp).2]
        · rw [List.filter_congr (fun b hb => by
            rw [part_any_match f sb np i probe b (List.mem_filter.mp hb).2]),
            filter_swap])]
    refine (flatMap_append_perm _ _ _).trans ?_
    exact List.Perm.append (partition_flatMap_rows sb np hnp probe _)
      (partition_map_rows sb np hnp
        (build.filter (fun b => !probe.any (fun p => rowsMatch f p b))) _)
  | leftSemiFilter =>
    rw [List.flatMap_congr (g := fun i =>
      ((probe.filter (fun p => build.any (fun b => rowsMatch f p b))).filter
        (fun r => partOf sb np r.key == i)).map fun p =>
        (⟨some p, none, none⟩ : OutRow)) (fun i _ => by
        show (List.filter _ _).map _ = _
        rw [List.filter_congr (fun p hp => by
          rw [part_any_match_build f sb np i build p
            (List.mem_filter.mp hp).2]),
          filter_swap])]
    exact partition_map_rows sb np hnp
      (probe.filter (fun p => build.any (fun b => rowsMatch f p b))) _
  | rightSemiFilter =>
    rw [List.flatMap_congr (g := fun i =>
      ((build.filter (fun b => probe.any (fun p => rowsMatch f p b))).filter
        (fun r => partOf sb np r.key == i)).map fun b =>
        (⟨none, some b, none⟩ : OutRow)) (fun i _ => by
        show (List.filter _ _).map _ = _
        rw [List.filter_congr (fun b hb => by
          rw [part_any_match f sb np i probe b (List.mem_filter.mp hb).2]),
          filter_swap])]
    exact partition_map_rows sb np hnp
      (build.filter (fun b => probe.any (fun p => rowsMatch f p b))) _
  | leftSemiProject =>
    cases na with
    | false =>
      rw [List.flatMap_congr (g := fun i =>
        (probe.filter (fun r => partOf sb np r.key == i)).map fun p =>
          (⟨some p, none,
            some (build.any (fun b => rowsMatch f p b))⟩ : OutRow))
        (fun i _ => by
          apply List.map_congr_left
          intro p hp
          rw [part_any_match_build f sb np i build p
            (List.mem_filter.mp hp).2])]
      exact partition_map_rows sb np hnp probe _
    | true =>
      rw [List.flatMap_congr (g := fun i =>
        (probe.filter (fun r => partOf sb np r.key == i)).map fun p =>
          (⟨some p, none,
            inFlagG g.buildEmpty g.buildHasNull build p.key⟩ : OutRow))
        (fun i _ => by
          apply List.map_congr_left
          intro p hp
          unfold inFlagG
          rw [part_any_keyEq sb np i build p.key
            (List.mem_filter.mp hp).2])]
      exact partition_map_rows sb np hnp probe _
  | rightSemiProject =>
    cases na with
    | false =>
      rw [List.flatMap_congr (g := fun i =>
        (build.filter (fun r => partOf sb np r.key == i)).map fun b =>
          (⟨none, some b,
            some (probe.any (fun p => rowsMatch f p b))⟩ : OutRow))
        (fun i _ => by
          apply List.map_congr_left
          intro b hb
          rw [part_any_match f sb np i probe b (List.mem_filter.mp hb).2])]
      exact partition_map_rows sb np hnp build _
    | true =>
      rw [List.flatMap_congr (g := fun i =>
        (build.filter (fun r => partOf sb np r.key == i)).map fun b =>
          (⟨none, some b,
            inFlagG g.probeEmpty g.probeHasNull probe b.key⟩ : OutRow))
        (fun i _ => by
          apply List.map_congr_left
          intro b hb
          unfold inFlagG
          rw [part_any_keyEq sb np i probe b.key
            (List.mem_filter.mp hb).2])]
      exact partition_map_rows sb np hnp build _
  | anti =>
    cases na with
    | false =>
      rw [List.flatMap_congr (g := fun i =>
        ((probe.filter
            (fun p => !build.any (fun b => rowsMatch f p b))).filter
          (fun r => partOf sb np r.key == i)).map fun p =>
          (⟨some p, none, none⟩ : OutRow)) (fun i _ => by
          show (List.filter _ _).map _ = _
          rw [List.filter_congr (fun p hp => by
            rw [part_any_match_build f sb np i build p
              (List.mem_filter.mp hp).2]),
            filter_swap])]
      exact partition_map_rows sb np hnp
        (probe.filter (fun p => !build.any (fun b => rowsMatch f p b))) _
    | true =>
      rw [List.flatMap_congr (g := fun i =>
        ((probe.filter (fun p =>
            notInBuildG g.buildEmpty g.buildHasNull build p.key)).filter
          (fun r => partOf sb np r.key == i)).map fun p =>
          (⟨some p, none, none⟩ : OutRow)) (fun i _ => by
          show (List.filter _ _).map _ = _
          rw [List.filter_congr (q := fun p =>
            notInBuildG g.buildEmpty g.buildHasNull build p.key)
            (fun p hp => by
              unfold notInBuildG
              rw [part_any_keyEq sb np i build p.key
                (List.mem_filter.mp hp).2]),
            filter_swap])]
      exact partition_map_rows sb np hnp
        (probe.filter (fun p =>
          notInBuildG g.buildEmpty g.buildHasNull build p.key)) _

mutual
/-- Execution under any well-formed spill schedule emits, up to permutation,
exactly the rows of the in-memory join with the same global statistics. -/
theorem spillExec_perm (jt : JoinType) (na : Bool) (f : JFilter) (nb : Nat)
    (g : GlobalStats) (maxLevel : Int) (hnb : 0 < nb)
    (hleg : LegalSpec jt na f) :
    ∀ (pl : SpillPlan) (level sb : Nat) (probe build : List Row),
      planWF pl = true →
      List.Perm (spillExec jt na f nb g maxLevel pl level sb probe build).1
        (coreJoin jt na f nb g probe build)
  | .mem, level, sb, probe, build, _ => by
      unfold spillExec
      exact List.Perm.refl _
  | .spill cs, level, sb, probe, build, hwf => by
      unfold spillExec
      cases canSpill maxLevel level with
      | false => exact List.Perm.refl _
      | true =>
        simp only [if_true]
        unfold planWF at hwf
        simp only [Bool.and_eq_true] at hwf
        obtain ⟨hne, hwfl⟩ := hwf
        have hnp : 0 < cs.length := by
          cases cs with
          | nil => simp at hne
          | cons a t => simp
        refine (spillParts_perm jt na f nb g maxLevel hnb hleg cs cs.length
          0 level sb probe build hwfl).trans ?_
        rw [← List.range_eq_range']
        rw [List.flatMap_congr (g := fun j =>
          refJoinG jt na f g
            (probe.filter (fun r => partOf sb cs.length r.key == j))
            (build.filter (fun r => partOf sb cs.length r.key == j)))
          (fun j _ => coreJoin_eq_refJoinG jt na f g _ _ hnb hleg)]
        rw [coreJoin_eq_refJoinG jt na f g probe build hnb hleg]
        exact refJoinG_partition_perm jt na f g sb cs.length hnp probe build

/-- Partition-by-partition processing emits, up to permutation, the
concatenation over the partition indices of the in-memory join of each
partition's rows. -/
theorem spillParts_perm (jt : JoinType) (na : Bool) (f : JFilter) (nb : Nat)
    (g : GlobalStats) (maxLevel : Int) (hnb : 0 < nb)
    (hleg : LegalSpec jt na f) :
    ∀ (cs : List SpillPlan) (np i level sb : Nat) (probe build : List Row),
      plansWF cs = true →
      List.Perm
        (spillParts jt na f nb g maxLevel cs np i level sb probe build).1
        ((List.range' i cs.length).flatMap fun j =>
          coreJoin jt na f nb g
            (probe.filter (fun r => partOf sb np r.key == j))
            (build.filter (fun r => partOf sb np r.key == j)))
  | [], np, i, level, sb, probe, build, _ => by
      unfold spillParts
      simp
  | c :: rest, np, i, level, sb, probe, build, hwf => by
      unfold spillParts plansWF at *
      simp only [Bool.and_eq_true] at hwf
      simp only [List.length_cons]
      rw [List.range'_succ, List.flatMap_cons]
      exact List.Perm.append
        (spillExec_perm jt na f nb g maxLevel hnb hleg c (level + 1)
          (sb + 3) _ _ hwf.1)
        (spillParts_perm jt na f nb g maxLevel hnb hleg rest np (i + 1)
          level sb probe build hwf.2)
end

/-- C2: For every pair of inputs and every well-formed spill schedule
(spill injected at arbitrary reclaim points, recursively, including forcing
a spill of every partition), the multiset of output rows of the hash join
equals the output of the same join executed with no spill. -/
theorem spillJoin_matches_noSpill (jt : JoinType) (na : Bool) (f : JFilter)
    {nb : Nat} (maxLevel : Int) (pl : SpillPlan) (sb : Nat)
    (probe build : List Row) (hnb : 0 < nb) (hleg : LegalSpec jt na f)
    (hwf : planWF pl = true) :
    Multiset.ofList (spillJoin jt na f nb maxLevel pl sb probe build).1 =
      Multiset.ofList (hashJoin jt na f nb probe build) :=
  Quot.sound (spillExec_perm jt na f nb (statsOf probe build) maxLevel hnb
    hleg pl 0 sb probe build hwf)

/-- Concrete instantiation of C2: an inner join under a two-level spill
schedule that spills every partition once and one partition twice. -/
theorem spillJoin_matches_noSpill_witness :
    0 < 4 ∧ LegalSpec .inner false none ∧
    planWF (.spill [.spill [.mem, .mem], .mem]) = true ∧
    Multiset.ofList (spillJoin .inner false none 4 (-1)
        (.spill [.spill [.mem, .mem], .mem]) 0
        [⟨.int 1, 10⟩, ⟨.int 2, 20⟩, ⟨.int 3, 30⟩]
        [⟨.int 2, 5⟩, ⟨.int 3, 6⟩, ⟨.int 4, 7⟩]).1 =
      Multiset.ofList (hashJoin .inner false none 4
        [⟨.int 1, 10⟩, ⟨.int 2, 20⟩, ⟨.int 3, 30⟩]
        [⟨.int 2, 5⟩, ⟨.int 3, 6⟩, ⟨.int 4, 7⟩]) :=
  ⟨by decide, fun h => absurd h (by simp),
    by simp [planWF, plansWF],
    spillJoin_matches_noSpill .inner false none (-1) _ 0 _ _ (by decide)
      (fun h => absurd h (by simp)) (by simp [planWF, plansWF])⟩

mutual
/-- The recorded exceeded-level event count is positive exactly when the
schedule reaches a spill request beyond the level budget. -/
theorem spillExec_exceed (jt : JoinType) (na : Bool) (f : JFilter)
    (nb : Nat) (g : GlobalStats) (maxLevel : Int) :
    ∀ (pl : SpillPlan) (level sb : Nat) (probe build : List Row),
      (0 < (spillExec jt na f nb g maxLevel pl level sb probe build).2) ↔
        planExceeds maxLevel pl level = true
  | .mem, level, sb, probe, build => by
      unfold spillExec planExceeds
      simp
  | .spill cs, level, sb, probe, build => by
      unfold spillExec planExceeds
      cases canSpill maxLevel level with
      | false => simp
      | true =>
        simp only [if_true]
        exact spillParts_exceed jt na f nb g maxLevel cs cs.length 0 level
          sb probe build

theorem spillParts_exceed (jt : JoinType) (na : Bool) (f : JFilter)
    (nb : Nat) (g : GlobalStats) (maxLevel : Int) :
    ∀ (cs : List SpillPlan) (np i level sb : Nat) (probe build : List Row),
      (0 < (spillParts jt na f nb g maxLevel cs np i level sb
        probe build).2) ↔
        plansExceed maxLevel cs (level + 1) = true
  | [], np, i, level, sb, probe, build => by
      unfold spillParts plansExceed
      simp
  | c :: rest, np, i, level, sb, probe, build => by
      unfold spillParts plansExceed
      rw [Bool.or_eq_true]
      rw [← spillExec_exceed jt na f nb g maxLevel c (level + 1) (sb + 3)
        (probe.filter (fun r => partOf sb np r.key == i))
        (build.filter (fun r => partOf sb np r.key == i)),
        ← spillParts_exceed jt na f nb g maxLevel rest np (i + 1) level sb
          probe build]
      show 0 < _ + _ ↔ _
      omega
end

/-- C7: when the spill schedule would exceed maxSpillLevel, the affected
partitions are processed in place without further recursion, the
exceededMaxSpillLevel statistic is recorded with count > 0 on both the
build and the probe operator, and the join output still equals the
non-spilled baseline. -/
theorem exceededMaxSpillLevel_inPlace (jt : JoinType) (na : Bool)
    (f : JFilter) {nb : Nat} (maxLevel : Int) (pl : SpillPlan) (sb : Nat)
    (probe build : List Row) (hnb : 0 < nb) (hleg : LegalSpec jt na f)
    (hwf : planWF pl = true)
    (hex : planExceeds maxLevel pl 0 = true) :
    0 < (spillJoinRun jt na f nb maxLevel pl sb probe
      build).2.buildExceededMaxSpillLevel ∧
    0 < (spillJoinRun jt na f nb maxLevel pl sb probe
      build).2.probeExceededMaxSpillLevel ∧
    Multiset.ofList
        (spillJoinRun jt na f nb maxLevel pl sb probe build).1 =
      Multiset.ofList (hashJoin jt na f nb probe build) := by
  refine ⟨?_, ?_, ?_⟩
  · exact (spillExec_exceed jt na f nb (statsOf probe build) maxLevel pl 0
      sb probe build).mpr hex
  · exact (spillExec_exceed jt na f nb (statsOf probe build) maxLevel pl 0
      sb probe build).mpr hex
  · exact Quot.sound (spillExec_perm jt na f nb (statsOf probe build)
      maxLevel hnb hleg pl 0 sb probe build hwf)

/-- Concrete instantiation of C7: maxSpillLevel = 0 with a schedule that
spills once and then requests a second, nested spill. -/
theorem exceededMaxSpillLevel_inPlace_witness :
    0 < 4 ∧ LegalSpec .inner false none ∧
    planWF (.spill [.spill [.mem, .mem], .mem]) = true ∧
    planExceeds 0 (.spill [.spill [.mem, .mem], .mem]) 0 = true ∧
    (0 < (spillJoinRun .inner false none 4 0
        (.spill [.spill [.mem, .mem], .mem]) 0
        [⟨.int 1, 10⟩, ⟨.int 2, 20⟩]
        [⟨.int 2, 5⟩, ⟨.int 4, 7⟩]).2.buildExceededMaxSpillLevel ∧
     0 < (spillJoinRun .inner false none 4 0
        (.spill [.spill [.mem, .mem], .mem]) 0
        [⟨.int 1, 10⟩, ⟨.int 2, 20⟩]
        [⟨.int 2, 5⟩, ⟨.int 4, 7⟩]).2.probeExceededMaxSpillLevel ∧
     Multiset.ofList (spillJoinRun .inner false none 4 0
        (.spill [.spill [.mem, .mem], .mem]) 0
        [⟨.int 1, 10⟩, ⟨.int 2, 20⟩]
        [⟨.int 2, 5⟩, ⟨.int 4, 7⟩]).1 =
      Multiset.ofList (hashJoin .inner false none 4
        [⟨.int 1, 10⟩, ⟨.int 2, 20⟩]
        [⟨.int 2, 5⟩, ⟨.int 4, 7⟩])) :=
  ⟨by decide, fun h => absurd h (by simp),
    by simp [planWF, plansWF],
    by simp [planExceeds, plansExceed, canSpill],
    exceededMaxSpillLevel_inPlace .inner false none 0 _ 0 _ _ (by decide)
      (fun h => absurd h (by simp)) (by simp [planWF, plansWF])
      (by simp [planExceeds, plansExceed, canSpill])⟩

/-- C6: once the per-query spill byte counter has crossed a non-zero
maxSpillBytes limit, every subsequent spill attempt fails with
SpillLimitExceeded; with maxSpillBytes = 0 the limit is unlimited and no
sequence of spill attempts ever raises the error. -/
theorem maxSpillBytes_limit (a : SpillAccount) (bytes : Nat)
    (bs : List Nat) :
    (a.maxSpillBytes ≠ 0 → a.maxSpillBytes < a.spilledBytes →
      trySpill a bytes = .error .spillLimitExceeded) ∧
    (a.maxSpillBytes = 0 →
      runSpills a bs = .ok ⟨0, a.spilledBytes + bs.sum⟩) := by
  constructor
  · intro h1 h2
    unfold trySpill
    rw [if_pos ⟨h1, h2⟩]
  · intro h0
    obtain ⟨m, s⟩ := a
    simp only at h0
    subst h0
    induction bs generalizing s with
    | nil => simp [runSpills]
    | cons b rest ih =>
      show runSpills ⟨0, s⟩ (b :: rest) = _
      unfold runSpills trySpill
      rw [if_neg (by simp)]
      show runSpills ⟨0, s + b⟩ rest = _
      rw [ih (s + b)]
      simp [List.sum_cons]
      omega

/-- Concrete instantiation of C6: a crossed 16-byte limit fails the next
attempt; an unlimited account absorbs any sequence of spills. -/
theorem maxSpillBytes_limit_witness :
    ((16 : Nat) ≠ 0 ∧ (16 : Nat) < 20 ∧
      trySpill ⟨16, 20⟩ 5 = .error .spillLimitExceeded) ∧
    ((0 : Nat) = 0 ∧
      runSpills ⟨0, 0⟩ [100, 200, 300] = .ok ⟨0, 0 + [100, 200, 300].sum⟩) :=
  ⟨⟨by decide, by decide,
    (maxSpillBytes_limit ⟨16, 20⟩ 5 []).1 (by decide) (by decide)⟩,
   ⟨rfl, (maxSpillBytes_limit ⟨0, 0⟩ 0 [100, 200, 300]).2 rfl⟩⟩

/-- C8: if any spill occurs during the join, the probe produces no dynamic
filters and the scan accepts none; conversely a dynamic filter is produced
only by a run whose schedule never spilled. -/
theorem spill_suppresses_dynamicFilters (pl : SpillPlan)
    (cols : List (List Int)) (maxDistinct : Nat) :
    (spillOccurred pl = true →
      probeFiltersProduced pl cols maxDistinct = [] ∧
      probeFiltersAccepted pl cols maxDistinct = 0) ∧
    (probeFiltersProduced pl cols maxDistinct ≠ [] →
      spillOccurred pl = false) := by
  constructor
  · intro h
    unfold probeFiltersAccepted probeFiltersProduced
    rw [h]
    simp
  · intro h
    cases hs : spillOccurred pl with
    | false => rfl
    | true =>
      exfalso
      apply h
      unfold probeFiltersProduced
      rw [hs]
      simp

/-- Concrete instantiation of C8: a schedule that spills suppresses the
filter of the single key column. -/
theorem spill_suppresses_dynamicFilters_witness :
    spillOccurred (.spill [.mem]) = true ∧
    probeFiltersProduced (.spill [.mem]) [[1, 2, 3]] 100 = [] ∧
    probeFiltersAccepted (.spill [.mem]) [[1, 2, 3]] 100 = 0 :=
  ⟨rfl, ((spill_suppresses_dynamicFilters (.spill [.mem]) [[1, 2, 3]] 100).1
      rfl).1,
    ((spill_suppresses_dynamicFilters (.spill [.mem]) [[1, 2, 3]] 100).1
      rfl).2⟩

set_option maxRecDepth 10000

theorem dfScenarioFilter_eq :
    dfScenarioFilter = ⟨35, 233, some dfBuildKeys⟩ := by decide

theorem dfPass0 : dfPassCount 0 = 100 := by
  unfold dfPassCount; rw [dfScenarioFilter_eq]; decide

theorem dfPass1 : dfPassCount 1 = 100 := by
  unfold dfPassCount; rw [dfScenarioFilter_eq]; decide

theorem dfPass2 : dfPassCount 2 = 100 := by
  unfold dfPassCount; rw [dfScenarioFilter_eq]; decide

theorem dfPass3 : dfPassCount 3 = 100 := by
  unfold dfPassCount; rw [dfScenarioFilter_eq]; decide

theorem dfPass4 : dfPassCount 4 = 100 := by
  unfold dfPassCount; rw [dfScenarioFilter_eq]; decide

theorem dfPass5 : dfPassCount 5 = 100 := by
  unfold dfPassCount; rw [dfScenarioFilter_eq]; decide

theorem dfPass6 : dfPassCount 6 = 100 := by
  unfold dfPassCount; rw [dfScenarioFilter_eq]; decide

theorem dfPass7 : dfPassCount 7 = 100 := by
  unfold dfPassCount; rw [dfScenarioFilter_eq]; decide

theorem dfPass8 : dfPassCount 8 = 100 := by
  unfold dfPassCount; rw [dfScenarioFilter_eq]; decide

theorem dfPass9 : dfPassCount 9 = 100 := by
  unfold dfPassCount; rw [dfScenarioFilter_eq]; decide

/-- C9: in the dynamic-filter replacement scenario (inner join, no spill,
10 probe scan splits of 333 rows each, 100 build keys in [35, 233], build
keys only in the output) exactly one dynamic filter is produced and
exactly one is accepted, and replacedWithFilterRows equals numBuildRows
times numSplits. -/
theorem dynamicFilter_replacement_scenario :
    dfReplacedWithFilterRows = 100 * 10 ∧
    (probeFiltersProduced .mem [dfBuildKeys] 10000).length = 1 ∧
    probeFiltersAccepted .mem [dfBuildKeys] 10000 = 1 := by
  refine ⟨?_, rfl, rfl⟩
  unfold dfReplacedWithFilterRows
  rw [show List.range 10 = [0, 1, 2, 3, 4, 5, 6, 7, 8, 9] from rfl]
  simp only [List.map_cons, List.map_nil, List.sum_cons, List.sum_nil,
    dfPass0, dfPass1, dfPass2, dfPass3, dfPass4, dfPass5, dfPass6, dfPass7,
    dfPass8, dfPass9]
  decide

/-- C10: over an empty build side, if hashProbeFinishEarlyOnEmptyBuild is
set the probe finishes without consuming any input row; if it is unset the
probe still consumes all its input. In both cases the output equals the
reference result and every spill counter is zero (inner join, as in the
emptyBuild test). -/
theorem emptyBuild_probe (finishEarly : Bool) (f : JFilter) {nb : Nat}
    (probe : List Row) (hnb : 0 < nb) :
    (finishEarly = true →
      (emptyBuildProbeRun finishEarly .inner false f nb
        probe).inputPositions = 0) ∧
    (finishEarly = false →
      (emptyBuildProbeRun finishEarly .inner false f nb
        probe).inputPositions = probe.length) ∧
    Multiset.ofList
        (emptyBuildProbeRun finishEarly .inner false f nb probe).out =
      Multiset.ofList (refJoin .inner false f probe []) ∧
    (emptyBuildProbeRun finishEarly .inner false f nb
      probe).spilledRows = 0 ∧
    (emptyBuildProbeRun finishEarly .inner false f nb
      probe).spilledBytes = 0 ∧
    (emptyBuildProbeRun finishEarly .inner false f nb
      probe).spilledPartitions = 0 ∧
    (emptyBuildProbeRun finishEarly .inner false f nb
      probe).spilledFiles = 0 := by
  have href : refJoin .inner false f probe [] = [] := by
    show probe.flatMap _ = []
    apply List.flatMap_eq_nil_iff.mpr
    intro p _
    rfl
  cases finishEarly with
  | true =>
    refine ⟨fun _ => rfl, fun h => Bool.noConfusion h, ?_, rfl, rfl, rfl, rfl⟩
    rw [href]
    rfl
  | false =>
    refine ⟨fun h => Bool.noConfusion h, fun _ => rfl, ?_, rfl, rfl, rfl, rfl⟩
    show Multiset.ofList (hashJoin .inner false f nb probe []) = _
    rw [show hashJoin .inner false f nb probe [] =
        coreJoin .inner false f nb (statsOf probe []) probe [] from rfl,
      coreJoin_eq_refJoinG .inner false f _ probe [] hnb
        (fun h => absurd h (by simp)),
      refJoinG_statsOf]

/-- Concrete instantiation of C10 at both configuration values. -/
theorem emptyBuild_probe_witness :
    0 < 4 ∧
    (emptyBuildProbeRun true .inner false none 4
      [⟨.int 1, 0⟩, ⟨.int 2, 1⟩]).inputPositions = 0 ∧
    (emptyBuildProbeRun false .inner false none 4
      [⟨.int 1, 0⟩, ⟨.int 2, 1⟩]).inputPositions = 2 ∧
    Multiset.ofList (emptyBuildProbeRun false .inner false none 4
        [⟨.int 1, 0⟩, ⟨.int 2, 1⟩]).out =
      Multiset.ofList (refJoin .inner false none
        [⟨.int 1, 0⟩, ⟨.int 2, 1⟩] []) :=
  ⟨by decide,
    (emptyBuild_probe true none [⟨.int 1, 0⟩, ⟨.int 2, 1⟩]
      (by decide)).1 rfl,
    (emptyBuild_probe false none [⟨.int 1, 0⟩, ⟨.int 2, 1⟩]
      (by decide)).2.1 rfl,
    (emptyBuild_probe false none [⟨.int 1, 0⟩, ⟨.int 2, 1⟩]
      (by decide)).2.2.1⟩

end VeloxJoin
